import Mathlib

/-!
# Z-Image orchestration layer: shallow embedding and verification

This file embeds the decision logic of the Z-Image repository in Lean 4 and
proves the properties claimed by the specification.

Sources embedded from the repository:
* `web/components/GeneratorForm.tsx` — `roundTo64`, `clamp64`, the initial
  form state, and the `handleSubmit` guard;
* `web/app/page.tsx` — `handleGenerate` (the duration estimate and the
  gallery update);
* `web/components/Lightbox.tsx` — `handleKeyDown` and the prev/next buttons;
* `generate.sh` — the CLI defaults and its prompt check.

The FastAPI service (`server/app.py`, `server/models.py`, `server/config.py`,
`server/sd_backend.py`) is not part of the provided sources; the components it
implements (RequestTranslator, ProxyGateway serialization, HealthMonitor) are
modelled from the specification, each such definition carrying a doc comment
that starts with `Modelled from the spec:`.
-/

/-- Decidable equality for `Except`, so that concrete translator runs can be
checked by `decide`. -/
instance {ε α : Type} [DecidableEq ε] [DecidableEq α] : DecidableEq (Except ε α) := fun a b =>
  match a, b with
  | .error x, .error y =>
    if h : x = y then isTrue (by rw [h]) else isFalse (by intro hc; cases hc; exact h rfl)
  | .ok x, .ok y =>
    if h : x = y then isTrue (by rw [h]) else isFalse (by intro hc; cases hc; exact h rfl)
  | .error _, .ok _ => isFalse (by intro hc; cases hc)
  | .ok _, .error _ => isFalse (by intro hc; cases hc)

namespace ZImage

/-! ## Basic data -/

/-- Generation mode, the discriminant of a request
(`GenerationMode` in `web/lib/types.ts`): `txt2img`, `img2img`, `inpaint`. -/
inductive Mode where
  | txt2img
  | img2img
  | inpaint
deriving DecidableEq, Repr

/-- Image payload bytes, abstracted as a list of byte values. -/
abbrev ImageBytes := List Nat

/-! ## GeneratorForm (`web/components/GeneratorForm.tsx`) -/

/-- `roundTo64` from `GeneratorForm.tsx`:
`Math.round(n / 64) * 64`.  JavaScript `Math.round x = ⌊x + 1/2⌋`, so on an
integer argument this is `⌊(n + 32) / 64⌋ * 64`, written with Euclidean
(floor, for a positive divisor) integer division. -/
def roundTo64 (n : ℤ) : ℤ := ((n + 32) / 64) * 64

/-- `clamp64` from `GeneratorForm.tsx`:
`Math.max(64, Math.min(2048, roundTo64(n)))`. -/
def clamp64 (n : ℤ) : ℤ := max 64 (min 2048 (roundTo64 n))

/-- The payload the form submits (`GenerationValues` in `web/lib/types.ts`):
every field is concrete because the form always fills each one. -/
structure GenerationValues where
  mode : Mode
  prompt : String
  negative_prompt : String
  width : ℤ
  height : ℤ
  steps : ℤ
  cfg_scale : ℚ
  seed : ℤ
  batch_size : ℤ
  sampler_name : String
  scheduler : String
  clip_skip : ℤ
  strength : ℚ
  image : Option ImageBytes
  mask : Option ImageBytes
deriving DecidableEq, Repr

/-- The form state of `GeneratorForm`, one field per `useState` hook. -/
structure FormState where
  mode : Mode
  prompt : String
  negativePrompt : String
  width : ℤ
  height : ℤ
  steps : ℤ
  cfgScale : ℚ
  seed : ℤ
  batchSize : ℤ
  samplerName : String
  scheduler : String
  clipSkip : ℤ
  strength : ℚ
  image : Option ImageBytes
  mask : Option ImageBytes
deriving DecidableEq, Repr

/-- The initial form state, one value per `useState` initializer in
`GeneratorForm.tsx`. -/
def initialFormState : FormState :=
  { mode := .txt2img
    prompt := ""
    negativePrompt := ""
    width := 1024
    height := 1024
    steps := 8
    cfgScale := 1
    seed := -1
    batchSize := 1
    samplerName := ""
    scheduler := ""
    clipSkip := -1
    strength := 3 / 4
    image := none
    mask := none }

/-- JavaScript `String.prototype.trim`: strips whitespace from both ends of a
string.  Written over the character list so that the kernel can evaluate it
(`String.trim` from core does not reduce). -/
def jsTrim (s : String) : String :=
  String.mk (((s.data.dropWhile Char.isWhitespace).reverse.dropWhile Char.isWhitespace).reverse)

/-- `handleSubmit` from `GeneratorForm.tsx`: returns the payload passed to
`onGenerate`, or `none` when the guard
`if (!prompt.trim() || isGenerating) return;` fires (an empty string is falsy
in JavaScript).  The payload carries the trimmed prompt and every form field,
with `image`/`mask` passed through (`image ?? undefined`). -/
def handleSubmit (f : FormState) (isGenerating : Bool) : Option GenerationValues :=
  if jsTrim f.prompt = "" ∨ isGenerating = true then none
  else some
    { mode := f.mode
      prompt := jsTrim f.prompt
      negative_prompt := f.negativePrompt
      width := f.width
      height := f.height
      steps := f.steps
      cfg_scale := f.cfgScale
      seed := f.seed
      batch_size := f.batchSize
      sampler_name := f.samplerName
      scheduler := f.scheduler
      clip_skip := f.clipSkip
      strength := f.strength
      image := f.image
      mask := f.mask }

/-! ## `handleGenerate` (`web/app/page.tsx`) -/

/-- The duration estimate computed in `handleGenerate`:
`const est = 30000 * (pixels / (1024 * 1024)) * (values.steps / 8)` with
`pixels = values.width * values.height`, over exact rationals. -/
def estimateMs (width height steps : ℚ) : ℚ :=
  30000 * ((width * height) / (1024 * 1024)) * (steps / 8)

/-- The gallery update in `handleGenerate`:
`setImages((prev) => [...result.images, ...prev])`. -/
def updateImages (resultImages prev : List String) : List String :=
  resultImages ++ prev

/-! ## Lightbox (`web/components/Lightbox.tsx`) -/

/-- The keys `handleKeyDown` reacts to; `other` stands for every other key. -/
inductive Key where
  | escape
  | arrowLeft
  | arrowRight
  | other
deriving DecidableEq, Repr

/-- `hasPrev` in `Lightbox.tsx`: `currentIdx > 0`. -/
def hasPrev (currentIdx : ℤ) : Bool := 0 < currentIdx

/-- `hasNext` in `Lightbox.tsx`: `currentIdx < images.length - 1`. -/
def hasNext (images : List String) (currentIdx : ℤ) : Bool :=
  currentIdx < (images.length : ℤ) - 1

/-- `handleKeyDown` in `Lightbox.tsx`, restricted to the index it passes to
`onNavigate`: `none` when no navigation fires (Escape calls `onClose`, not
`onNavigate`). -/
def handleKeyDown (images : List String) (currentIdx : ℤ) (k : Key) : Option ℤ :=
  match k with
  | .arrowLeft => if hasPrev currentIdx then some (currentIdx - 1) else none
  | .arrowRight => if hasNext images currentIdx then some (currentIdx + 1) else none
  | _ => none

/-- The previous button of the Lightbox: rendered only when `hasPrev`, and its
`onClick` calls `onNavigate(currentIdx - 1)`; `none` when the button is not
rendered. -/
def prevButtonNav (currentIdx : ℤ) : Option ℤ :=
  if hasPrev currentIdx then some (currentIdx - 1) else none

/-- The next button of the Lightbox: rendered only when `hasNext`, and its
`onClick` calls `onNavigate(currentIdx + 1)`; `none` when the button is not
rendered. -/
def nextButtonNav (images : List String) (currentIdx : ℤ) : Option ℤ :=
  if hasNext images currentIdx then some (currentIdx + 1) else none

/-! ## CLI defaults and prompt check (`generate.sh`) -/

/-- The option state of `generate.sh` after argument parsing; the fields and
their initial values mirror the `# Defaults` block of the script. -/
structure ShOptions where
  prompt : String
  negative : String
  initImg : String
  strength : ℚ
  output : String
  width : ℤ
  height : ℤ
  steps : ℤ
  seed : ℤ
deriving DecidableEq, Repr

/-- The `# Defaults` block of `generate.sh`: `PROMPT=""`, `NEGATIVE=""`,
`INIT_IMG=""`, `STRENGTH=0.75`, `OUTPUT="output.png"`, `WIDTH=1024`,
`HEIGHT=1024`, `STEPS=8`, `SEED=-1`. -/
def shDefaults : ShOptions :=
  { prompt := ""
    negative := ""
    initImg := ""
    strength := 3 / 4
    output := "output.png"
    width := 1024
    height := 1024
    steps := 8
    seed := -1 }

/-- The prompt check of `generate.sh`: `[[ -z "$PROMPT" ]]` aborts with exit
code 1 before the engine command is built; `true` means the script proceeds to
run `sd-cli`. -/
def shAcceptsPrompt (prompt : String) : Bool := prompt ≠ ""

/-- The `--cfg-scale` value hard-coded in the `CMD` block of `generate.sh`. -/
def shCfgScale : ℚ := 1

/-! ## HealthMonitor (spec §4.2) -/

/-- Engine process state (`EngineProcess.state` in the data model):
`Stopped`, `Starting`, `Ready`, `Degraded`, `Crashed`.

Modelled from the spec: the supervisor implementation (`server/sd_backend.py`)
is not among the provided sources. -/
inductive EngineState where
  | Stopped
  | Starting
  | Ready
  | Degraded
  | Crashed
deriving DecidableEq, Repr

/-- External health status: `ok`, `degraded`, `down`. -/
inductive HealthStatus where
  | ok
  | degraded
  | down
deriving DecidableEq, Repr

/-- Modelled from the spec: the HealthMonitor implementation
(`server/sd_backend.py` / `server/app.py`) is not among the provided sources.
Spec §4.2: "Computes HealthStatus purely as a function of current
EngineProcess.state: Starting/Crashed/Stopped → down; Degraded → degraded;
Ready → ok." -/
def healthStatus : EngineState → HealthStatus
  | .Starting => .down
  | .Crashed => .down
  | .Stopped => .down
  | .Degraded => .degraded
  | .Ready => .ok

/-! ## RequestTranslator (spec §4.3)

The translator lives in the FastAPI service (`server/models.py` /
`server/app.py`), which is not among the provided sources; it is modelled here
from spec §3, §4.3 and §6. -/

/-- The per-field validation failures of spec §4.3: "fails with
`ValidationError` when: width/height not a multiple of 64 or outside
[64,2048]; mode requires an image/mask that is absent; strength outside [0,1]
when required; prompt empty". -/
inductive ValidationError where
  | invalidDimensions
  | missingImage
  | missingMask
  | invalidStrength
  | emptyPrompt
deriving DecidableEq, Repr

/-- A dimension is valid when it is a multiple of 64 inside [64, 2048]
(spec §3). -/
def dimOK (d : ℤ) : Bool :=
  decide (d % 64 = 0) && decide (64 ≤ d) && decide (d ≤ 2048)

/-- The client-facing generation request (spec §3): optional fields are
`Option`s, `none` meaning "left unset". -/
structure GenRequest where
  mode : Mode
  prompt : String
  negative_prompt : Option String
  width : Option ℤ
  height : Option ℤ
  steps : Option ℤ
  cfg_scale : Option ℚ
  seed : Option ℤ
  batch_size : Option ℤ
  sampler_name : Option String
  scheduler : Option String
  clip_skip : Option ℤ
  strength : Option ℚ
  image : Option ImageBytes
  mask : Option ImageBytes
deriving DecidableEq, Repr

/-- A request with every optional field resolved to a concrete value. -/
structure ResolvedRequest where
  mode : Mode
  prompt : String
  negative_prompt : String
  width : ℤ
  height : ℤ
  steps : ℤ
  cfg_scale : ℚ
  seed : ℤ
  batch_size : ℤ
  sampler_name : String
  scheduler : String
  clip_skip : ℤ
  strength : ℚ
  image : Option ImageBytes
  mask : Option ImageBytes
deriving DecidableEq, Repr

/-- The service's configured baseline values.

Modelled from the spec: `server/config.py` is not among the provided sources.
Spec §4.3 names sampler "euler", cfg_scale 1.0, steps 8; the project guide and
`generate.sh` fix width/height 1024, seed −1 (random), strength 0.75. -/
structure ServiceDefaults where
  steps : ℤ
  cfg_scale : ℚ
  width : ℤ
  height : ℤ
  seed : ℤ
  strength : ℚ
  sampler_name : String
  scheduler : String
  negative_prompt : String
  batch_size : ℤ
  clip_skip : ℤ
deriving DecidableEq, Repr

/-- The configured defaults resolved at startup (spec §6). -/
def serviceDefaults : ServiceDefaults :=
  { steps := 8
    cfg_scale := 1
    width := 1024
    height := 1024
    seed := -1
    strength := 3 / 4
    sampler_name := "euler"
    scheduler := ""
    negative_prompt := ""
    batch_size := 1
    clip_skip := -1 }

/-- Modelled from the spec: the defaulting pass of the translator
(spec §4.3, "any optional field left unset is replaced by the service's
configured default"). -/
def applyDefaults (r : GenRequest) : ResolvedRequest :=
  { mode := r.mode
    prompt := r.prompt
    negative_prompt := r.negative_prompt.getD serviceDefaults.negative_prompt
    width := r.width.getD serviceDefaults.width
    height := r.height.getD serviceDefaults.height
    steps := r.steps.getD serviceDefaults.steps
    cfg_scale := r.cfg_scale.getD serviceDefaults.cfg_scale
    seed := r.seed.getD serviceDefaults.seed
    batch_size := r.batch_size.getD serviceDefaults.batch_size
    sampler_name := r.sampler_name.getD serviceDefaults.sampler_name
    scheduler := r.scheduler.getD serviceDefaults.scheduler
    clip_skip := r.clip_skip.getD serviceDefaults.clip_skip
    strength := r.strength.getD serviceDefaults.strength
    image := r.image
    mask := r.mask }

/-- Modelled from the spec: the validation pass of the translator, in the
order spec §4.3 lists the failures.  Returns the first violated constraint, or
`none` when the request is valid. -/
def validate (r : ResolvedRequest) : Option ValidationError :=
  if ¬ (dimOK r.width = true ∧ dimOK r.height = true) then some .invalidDimensions
  else if r.mode ≠ .txt2img ∧ r.image = none then some .missingImage
  else if r.mode = .inpaint ∧ r.mask = none then some .missingMask
  else if r.mode ≠ .txt2img ∧ ¬ (0 ≤ r.strength ∧ r.strength ≤ 1) then some .invalidStrength
  else if r.prompt = "" then some .emptyPrompt
  else none

/-- The wire shape of the engine call (spec §4.3 encoding rule). -/
inductive WireShape where
  | jsonBody
  | multipart
deriving DecidableEq, Repr

/-- The engine's wire request (spec §6 outbound shape). -/
structure EngineWireRequest where
  shape : WireShape
  prompt : String
  negative_prompt : String
  width : ℤ
  height : ℤ
  steps : ℤ
  cfg_scale : ℚ
  seed : ℤ
  batch_size : ℤ
  sampler_name : String
  scheduler : String
  clip_skip : ℤ
  init_images : List ImageBytes
  denoising_strength : Option ℚ
  mask : Option ImageBytes
deriving DecidableEq, Repr

/-- Modelled from the spec: the mode routing of the translator (spec §4.3):
text_to_image maps to the JSON-body call; image_to_image to the same shape
plus source image and `denoising_strength`; inpaint additionally attaches the
mask and goes over multipart. -/
def toWire (r : ResolvedRequest) : EngineWireRequest :=
  { shape := if r.mode = .inpaint then .multipart else .jsonBody
    prompt := r.prompt
    negative_prompt := r.negative_prompt
    width := r.width
    height := r.height
    steps := r.steps
    cfg_scale := r.cfg_scale
    seed := r.seed
    batch_size := r.batch_size
    sampler_name := r.sampler_name
    scheduler := r.scheduler
    clip_skip := r.clip_skip
    init_images := if r.mode = .txt2img then [] else [r.image.getD []]
    denoising_strength := if r.mode = .txt2img then none else some r.strength
    mask := if r.mode = .inpaint then r.mask else none }

/-- Modelled from the spec: `RequestTranslator.translate` (spec §4.3):
substitute configured defaults, validate, and convert to the engine's wire
format; the first violated constraint is returned as a `ValidationError` and
nothing is forwarded. -/
def translate (req : GenRequest) : Except ValidationError EngineWireRequest :=
  match validate (applyDefaults req) with
  | some e => .error e
  | none => .ok (toWire (applyDefaults req))

/-! ## ProxyGateway serialization (spec §4.4, §5)

Modelled from the spec: the gateway implementation (`server/app.py`) is not
among the provided sources.  Spec §4.4: "the gateway enforces at-most-one
in-flight forward call to the engine; additional concurrent callers either
queue (bounded queue depth) or are rejected with a backpressure error once the
queue is full"; spec §5: "requests are admitted to the single-engine critical
section in arrival order (FIFO); no request is started against the engine
while a previous one is still in flight."  The interleaving of concurrent
callers is modelled as a sequence of atomic events: a caller arriving, or the
in-flight engine call completing.  Requests are identified by natural
numbers. -/

/-- The gateway's serialization state: the request currently forwarded to the
engine (at most one, by construction), and the bounded FIFO wait queue. -/
structure GatewayState where
  inflight : Option ℕ
  queue : List ℕ
deriving DecidableEq, Repr

/-- The gateway's initial state: idle, empty queue. -/
def gwInit : GatewayState := { inflight := none, queue := [] }

/-- An atomic event at the gateway: a caller arrives with request `r`, or the
in-flight engine call completes. -/
inductive GEvent where
  | arrive (r : ℕ)
  | complete
deriving DecidableEq, Repr

/-- An observable action of the gateway: a forward call issued to the engine
for request `r`, or an explicit backpressure rejection of request `r`. -/
inductive GAction where
  | forwarded (r : ℕ)
  | rejected (r : ℕ)
deriving DecidableEq, Repr

/-- Modelled from the spec: one atomic step of the gateway with queue bound
`cap`.  An arriving caller is forwarded at once when the gateway is idle,
queued while the engine is busy and the queue has room, and rejected with a
backpressure error once the queue is full.  On completion the head of the
wait queue, if any, is forwarded next (FIFO). -/
def gwStep (cap : ℕ) (s : GatewayState) : GEvent → GatewayState × List GAction
  | .arrive r =>
    if s.inflight = none ∧ s.queue = [] then
      ({ inflight := some r, queue := [] }, [.forwarded r])
    else if s.queue.length < cap then
      ({ inflight := s.inflight, queue := s.queue ++ [r] }, [])
    else
      (s, [.rejected r])
  | .complete =>
    match s.inflight with
    | none => (s, [])
    | some _ =>
      match s.queue with
      | [] => ({ inflight := none, queue := [] }, [])
      | q :: rest => ({ inflight := some q, queue := rest }, [.forwarded q])

/-- Run the gateway over a sequence of events, collecting the emitted
actions in order. -/
def gwRun (cap : ℕ) (s : GatewayState) : List GEvent → GatewayState × List GAction
  | [] => (s, [])
  | e :: evs =>
    let p := gwStep cap s e
    let q := gwRun cap p.1 evs
    (q.1, p.2 ++ q.2)

/-- The requests forwarded to the engine, in emission order. -/
def forwardedIds : List GAction → List ℕ
  | [] => []
  | .forwarded r :: rest => r :: forwardedIds rest
  | .rejected _ :: rest => forwardedIds rest

/-- The requests that arrived, in arrival order. -/
def arrivals : List GEvent → List ℕ
  | [] => []
  | .arrive r :: rest => r :: arrivals rest
  | .complete :: rest => arrivals rest

/-! ## Spec-side formulations (for refinement statements) -/

/-- The baseline generation time of the timeout heuristic (spec §4.4), in
milliseconds. -/
def baselineMs : ℚ := 30000

/-- The reference pixel count of the timeout heuristic: 1024 × 1024. -/
def referencePixels : ℚ := 1024 * 1024

/-- The reference step count of the timeout heuristic. -/
def referenceSteps : ℚ := 8

/-- The spec's wording of the duration estimate (spec §4.4): "baseline time ×
(pixels / reference_pixels) × (steps / reference_steps)". -/
def specEstimate (width height steps : ℚ) : ℚ :=
  baselineMs * ((width * height) / referencePixels) * (steps / referenceSteps)

/-- A text-to-image request with every optional field left unset, used to
exercise the translator on concrete inputs. -/
def emptyGenRequest : GenRequest :=
  { mode := .txt2img
    prompt := "a cat"
    negative_prompt := none
    width := none
    height := none
    steps := none
    cfg_scale := none
    seed := none
    batch_size := none
    sampler_name := none
    scheduler := none
    clip_skip := none
    strength := none
    image := none
    mask := none }

/-! ## Claim theorems -/

/-- C1: for every request, the estimated generation duration computed in
`handleGenerate` before forwarding equals baseline time × (pixels /
reference_pixels) × (steps / reference_steps); concretely
30000 × ((w×h) / (1024×1024)) × (s / 8) milliseconds. -/
theorem estimate_matches_spec_formula (w h s : ℚ) :
    estimateMs w h s = specEstimate w h s ∧
    estimateMs w h s = 30000 * ((w * h) / (1024 * 1024)) * (s / 8) ∧
    estimateMs w h s = (30000 * w * h * s) / 8388608 := by
  refine ⟨rfl, rfl, ?_⟩
  unfold estimateMs
  ring

/-- C4: HealthStatus is a pure function of `EngineProcess.state` — the model
`healthStatus` takes the engine state as its only argument, so no other input
can influence the result — and on the five states it maps Starting, Crashed
and Stopped to down, Degraded to degraded, and Ready to ok. -/
theorem health_status_table :
    healthStatus EngineState.Starting = HealthStatus.down ∧
    healthStatus EngineState.Crashed = HealthStatus.down ∧
    healthStatus EngineState.Stopped = HealthStatus.down ∧
    healthStatus EngineState.Degraded = HealthStatus.degraded ∧
    healthStatus EngineState.Ready = HealthStatus.ok := by
  decide

/-- C8: for every integer n, `clamp64 n` is a multiple of 64 inside
[64, 2048], `clamp64` is idempotent, and it fixes every multiple of 64 that
already lies in [64, 2048]. -/
theorem clamp64_range_multiple_idempotent :
    (∀ n : ℤ, (64 ∣ clamp64 n) ∧ 64 ≤ clamp64 n ∧ clamp64 n ≤ 2048 ∧
      clamp64 (clamp64 n) = clamp64 n) ∧
    (∀ n : ℤ, 64 ∣ n → 64 ≤ n → n ≤ 2048 → clamp64 n = n) := by
  unfold clamp64 roundTo64
  constructor
  · intro n
    omega
  · intro n h1 h2 h3
    omega

/-- Witness for C8: the theorem applied at the concrete inputs 100 and 128. -/
theorem clamp64_range_multiple_idempotent_witness :
    clamp64 (clamp64 100) = clamp64 100 ∧
    ((64 : ℤ) ∣ 128 ∧ (64 : ℤ) ≤ 128 ∧ (128 : ℤ) ≤ 2048) ∧
    clamp64 128 = 128 ∧ clamp64 100 = 128 :=
  ⟨(clamp64_range_multiple_idempotent.1 100).2.2.2,
   ⟨⟨2, by norm_num⟩, by norm_num, by norm_num⟩,
   clamp64_range_multiple_idempotent.2 128 ⟨2, by norm_num⟩ (by norm_num) (by norm_num),
   by decide⟩

/-- C9: when a generation call succeeds, the new gallery list equals the
result's images (in returned order) prepended to the previous list, so the
previous list survives unmodified, in order, as a suffix — newest batch
first. -/
theorem gallery_prepends_new_batch (resultImages prev : List String) :
    updateImages resultImages prev = resultImages ++ prev ∧
    List.IsSuffix prev (updateImages resultImages prev) :=
  ⟨rfl, ⟨resultImages, rfl⟩⟩

/-- C10: with a non-empty image list and a current index inside
[0, images.length − 1], every index the Lightbox passes to `onNavigate` —
from ArrowLeft/ArrowRight in `handleKeyDown` or from the previous/next
buttons — stays inside [0, images.length − 1]; ArrowLeft navigation fires
only when currentIdx > 0 and ArrowRight only when
currentIdx < images.length − 1. -/
theorem lightbox_navigation_in_bounds (images : List String) (currentIdx j : ℤ)
    (k : Key) (hlen : 0 < images.length) (h0 : 0 ≤ currentIdx)
    (h1 : currentIdx ≤ (images.length : ℤ) - 1) :
    ((handleKeyDown images currentIdx k = some j ∨
      prevButtonNav currentIdx = some j ∨
      nextButtonNav images currentIdx = some j) →
      0 ≤ j ∧ j ≤ (images.length : ℤ) - 1) ∧
    (handleKeyDown images currentIdx Key.arrowLeft ≠ none → 0 < currentIdx) ∧
    (handleKeyDown images currentIdx Key.arrowRight ≠ none →
      currentIdx < (images.length : ℤ) - 1) := by
  unfold handleKeyDown prevButtonNav nextButtonNav hasPrev hasNext
  refine ⟨?_, ?_, ?_⟩
  · intro hnav
    rcases hnav with hk | hb | hb
    · cases k <;> simp_all <;> omega
    · simp_all
      omega
    · simp_all
      omega
  · intro hk
    simp_all
  · intro hk
    simp_all
    omega

/-- Witness for C10: the theorem applied to a two-image gallery at index 1
with an ArrowLeft key press, which navigates to index 0. -/
theorem lightbox_navigation_in_bounds_witness :
    (0 : ℤ) ≤ 0 ∧ (0 : ℤ) ≤ ((["a", "b"] : List String).length : ℤ) - 1 :=
  (lightbox_navigation_in_bounds ["a", "b"] 1 0 Key.arrowLeft
    (by decide) (by decide) (by decide)).1 (Or.inl (by decide))

/-- Helper: when validation fails, the translator surfaces exactly that
`ValidationError` and forwards nothing. -/
theorem translate_error_of_validate (req : GenRequest) (e : ValidationError)
    (h : validate (applyDefaults req) = some e) :
    translate req = Except.error e := by
  unfold translate
  rw [h]

/-- Helper: validation never succeeds on an inpaint request without a mask. -/
theorem validate_some_of_inpaint_no_mask (r : ResolvedRequest)
    (hm : r.mode = Mode.inpaint) (hmask : r.mask = none) :
    ∃ e, validate r = some e := by
  unfold validate
  split_ifs with h1 h2 h3 h4 h5
  all_goals try exact ⟨_, rfl⟩
  all_goals exact absurd ⟨hm, hmask⟩ h3

/-- Helper: validation never succeeds on an empty prompt. -/
theorem validate_some_of_empty_prompt (r : ResolvedRequest)
    (hp : r.prompt = "") :
    ∃ e, validate r = some e := by
  unfold validate
  split_ifs with h1 h2 h3 h4
  all_goals exact ⟨_, rfl⟩

/-- C2: every request carrying a width or height that is not a multiple of 64
or lies outside [64, 2048] is rejected by the translator with
`ValidationError.invalidDimensions` — it is not silently adjusted and never
forwarded to the engine (the translator returns an error, not a wire
request). -/
theorem invalid_dimensions_rejected (req : GenRequest)
    (hbad : (∃ w, req.width = some w ∧ dimOK w = false) ∨
            (∃ h, req.height = some h ∧ dimOK h = false)) :
    translate req = Except.error ValidationError.invalidDimensions := by
  have hcond : ¬ (dimOK (applyDefaults req).width = true ∧
      dimOK (applyDefaults req).height = true) := by
    rcases hbad with ⟨w, hw, hbw⟩ | ⟨h, hh, hbh⟩
    · intro hc
      have hww : (applyDefaults req).width = w := by simp [applyDefaults, hw]
      rw [hww, hbw] at hc
      exact absurd hc.1 (by simp)
    · intro hc
      have hhh : (applyDefaults req).height = h := by simp [applyDefaults, hh]
      rw [hhh, hbh] at hc
      exact absurd hc.2 (by simp)
  apply translate_error_of_validate
  unfold validate
  rw [if_pos hcond]

/-- Witness for C2: a request with width 100 (not a multiple of 64) is
rejected with `invalidDimensions`. -/
theorem invalid_dimensions_rejected_witness :
    translate { emptyGenRequest with width := some 100 } =
      Except.error ValidationError.invalidDimensions :=
  invalid_dimensions_rejected _ (Or.inl ⟨100, rfl, by decide⟩)

/-- C3: every request with mode = inpaint and no mask is rejected by the
translator (a `ValidationError` results no matter what the other fields are —
`translate` is a pure function of the request, so the rejection is
deterministic), before any engine wire request is produced. -/
theorem inpaint_without_mask_rejected (req : GenRequest)
    (hm : req.mode = Mode.inpaint) (hmask : req.mask = none) :
    ∃ e, translate req = Except.error e := by
  have hm' : (applyDefaults req).mode = Mode.inpaint := hm
  have hk' : (applyDefaults req).mask = none := hmask
  obtain ⟨e, he⟩ := validate_some_of_inpaint_no_mask _ hm' hk'
  exact ⟨e, translate_error_of_validate req e he⟩

/-- Witness for C3: an inpaint request with an image but no mask is
rejected. -/
theorem inpaint_without_mask_rejected_witness :
    ∃ e, translate { emptyGenRequest with mode := Mode.inpaint, image := some [1] } =
      Except.error e :=
  inpaint_without_mask_rejected _ rfl rfl

/-- C7: a request whose prompt is empty or whitespace-only never reaches the
engine: the form's `handleSubmit` refuses to submit whenever the trimmed
prompt is empty, the translator rejects an empty prompt with a
`ValidationError` before producing any wire request, and `generate.sh` aborts
on an empty prompt before building the engine command. -/
theorem empty_prompt_rejected :
    (∀ (f : FormState) (g : Bool), jsTrim f.prompt = "" → handleSubmit f g = none) ∧
    (∀ req : GenRequest, req.prompt = "" → ∃ e, translate req = Except.error e) ∧
    shAcceptsPrompt "" = false := by
  refine ⟨?_, ?_, by decide⟩
  · intro f g hf
    unfold handleSubmit
    rw [if_pos (Or.inl hf)]
  · intro req hp
    have hp' : (applyDefaults req).prompt = "" := hp
    obtain ⟨e, he⟩ := validate_some_of_empty_prompt _ hp'
    exact ⟨e, translate_error_of_validate req e he⟩

/-- Witness for C7: a whitespace-only prompt is not submitted by the form, and
an empty prompt is rejected by the translator. -/
theorem empty_prompt_rejected_witness :
    jsTrim "   " = "" ∧
    handleSubmit { initialFormState with prompt := "   " } false = none ∧
    (∃ e, translate { emptyGenRequest with prompt := "" } = Except.error e) :=
  ⟨by decide,
   empty_prompt_rejected.1 { initialFormState with prompt := "   " } false (by decide),
   empty_prompt_rejected.2.1 { emptyGenRequest with prompt := "" } rfl⟩

/-- C6: every optional field left unset is replaced by the service's own
configured baseline before forwarding — steps 8, cfg_scale 1.0, width and
height 1024, seed −1, strength 0.75, sampler "euler" — as substituted by the
translator's defaulting pass; the same baselines appear in the form's initial
state and in the `generate.sh` defaults. -/
theorem unset_fields_replaced_by_service_defaults (req : GenRequest) :
    ((req.steps = none → (applyDefaults req).steps = 8) ∧
     (req.cfg_scale = none → (applyDefaults req).cfg_scale = 1) ∧
     (req.width = none → (applyDefaults req).width = 1024) ∧
     (req.height = none → (applyDefaults req).height = 1024) ∧
     (req.seed = none → (applyDefaults req).seed = -1) ∧
     (req.strength = none → (applyDefaults req).strength = 3 / 4) ∧
     (req.sampler_name = none → (applyDefaults req).sampler_name = "euler")) ∧
    (∀ wire, translate req = Except.ok wire → req.steps = none → wire.steps = 8) ∧
    (serviceDefaults.steps = 8 ∧ serviceDefaults.cfg_scale = 1 ∧
     serviceDefaults.width = 1024 ∧ serviceDefaults.height = 1024 ∧
     serviceDefaults.seed = -1 ∧ serviceDefaults.strength = 3 / 4 ∧
     serviceDefaults.sampler_name = "euler") ∧
    (initialFormState.steps = 8 ∧ initialFormState.cfgScale = 1 ∧
     initialFormState.width = 1024 ∧ initialFormState.height = 1024 ∧
     initialFormState.seed = -1 ∧ initialFormState.strength = 3 / 4) ∧
    (shDefaults.steps = 8 ∧ shCfgScale = 1 ∧ shDefaults.width = 1024 ∧
     shDefaults.height = 1024 ∧ shDefaults.seed = -1 ∧
     shDefaults.strength = 3 / 4) := by
  refine ⟨⟨?_, ?_, ?_, ?_, ?_, ?_, ?_⟩, ?_, ?_, ?_, ?_⟩
  all_goals try (intro h; simp [applyDefaults, serviceDefaults, h])
  · intro wire hw hsteps
    unfold translate at hw
    cases hv : validate (applyDefaults req) with
    | some e => rw [hv] at hw; exact absurd hw (by simp)
    | none =>
      rw [hv] at hw
      have hwire : wire = toWire (applyDefaults req) := by
        injection hw with h
        exact h.symm
      rw [hwire]
      simp [toWire, applyDefaults, serviceDefaults, hsteps]
  · exact ⟨rfl, rfl, rfl, rfl, rfl, rfl, rfl⟩
  · exact ⟨rfl, rfl, rfl, rfl, rfl, rfl⟩
  · exact ⟨rfl, rfl, rfl, rfl, rfl, rfl⟩

/-- Witness for C6: applying the theorem to a request with every optional
field unset substitutes the service baselines. -/
theorem unset_fields_replaced_by_service_defaults_witness :
    (applyDefaults emptyGenRequest).steps = 8 ∧
    (applyDefaults emptyGenRequest).sampler_name = "euler" ∧
    (applyDefaults emptyGenRequest).cfg_scale = 1 ∧
    (applyDefaults emptyGenRequest).seed = -1 :=
  ⟨(unset_fields_replaced_by_service_defaults emptyGenRequest).1.1 rfl,
   (unset_fields_replaced_by_service_defaults emptyGenRequest).1.2.2.2.2.2.2 rfl,
   (unset_fields_replaced_by_service_defaults emptyGenRequest).1.2.1 rfl,
   (unset_fields_replaced_by_service_defaults emptyGenRequest).1.2.2.2.2.1 rfl⟩

/-- Helper: `forwardedIds` distributes over list append. -/
theorem forwardedIds_append (a b : List GAction) :
    forwardedIds (a ++ b) = forwardedIds a ++ forwardedIds b := by
  induction a with
  | nil => rfl
  | cons x rest ih => cases x <;> simp [forwardedIds, ih]

/-- Helper: unfolding one event of a gateway run. -/
theorem gwRun_cons (cap : ℕ) (s : GatewayState) (e : GEvent) (evs : List GEvent) :
    gwRun cap s (e :: evs) =
      ((gwRun cap (gwStep cap s e).1 evs).1,
       (gwStep cap s e).2 ++ (gwRun cap (gwStep cap s e).1 evs).2) := rfl

/-- Helper (FIFO invariant): over any run, the requests forwarded to the
engine followed by the requests still waiting form an order-preserving
subsequence of the pending queue followed by the arrivals. -/
theorem gwRun_fifo_general (cap : ℕ) :
    ∀ (evs : List GEvent) (s : GatewayState),
      List.Sublist (forwardedIds (gwRun cap s evs).2 ++ (gwRun cap s evs).1.queue)
        (s.queue ++ arrivals evs) := by
  intro evs
  induction evs with
  | nil => intro s; simp [gwRun, forwardedIds, arrivals]
  | cons e evs ih =>
    intro s
    rw [gwRun_cons, forwardedIds_append]
    cases e with
    | arrive r =>
      by_cases hidle : s.inflight = none ∧ s.queue = []
      · simp only [gwStep, if_pos hidle, forwardedIds, arrivals, List.cons_append]
        rw [hidle.2]
        simp only [List.nil_append]
        refine List.Sublist.cons₂ r ?_
        simpa using ih { inflight := some r, queue := [] }
      · by_cases hq : s.queue.length < cap
        · simp only [gwStep, if_neg hidle, if_pos hq, forwardedIds, arrivals,
            List.nil_append]
          have h2 := ih { inflight := s.inflight, queue := s.queue ++ [r] }
          simpa [List.append_assoc] using h2
        · simp only [gwStep, if_neg hidle, if_neg hq, forwardedIds, arrivals,
            List.nil_append]
          exact (ih s).trans ((List.sublist_cons_self r (arrivals evs)).append_left s.queue)
    | complete =>
      cases hin : s.inflight with
      | none =>
        simp only [gwStep, hin, forwardedIds, arrivals, List.nil_append]
        exact ih s
      | some x =>
        cases hqq : s.queue with
        | nil =>
          simp only [gwStep, hin, hqq, forwardedIds, arrivals, List.nil_append]
          have h2 := ih { inflight := none, queue := [] }
          simpa using h2
        | cons q rest =>
          simp only [gwStep, hin, hqq, forwardedIds, arrivals, List.cons_append]
          refine List.Sublist.cons₂ q ?_
          simpa using ih { inflight := some q, queue := rest }

/-- Helper: the wait queue never exceeds the configured bound. -/
theorem gwRun_queue_bound (cap : ℕ) :
    ∀ (evs : List GEvent) (s : GatewayState), s.queue.length ≤ cap →
      (gwRun cap s evs).1.queue.length ≤ cap := by
  intro evs
  induction evs with
  | nil => intro s h; simpa [gwRun] using h
  | cons e evs ih =>
    intro s h
    rw [gwRun_cons]
    cases e with
    | arrive r =>
      by_cases hidle : s.inflight = none ∧ s.queue = []
      · exact ih _ (by simp [gwStep, if_pos hidle])
      · by_cases hq : s.queue.length < cap
        · refine ih _ ?_
          simp only [gwStep, if_neg hidle, if_pos hq]
          simpa using hq
        · exact ih _ (by simpa [gwStep, if_neg hidle, if_neg hq] using h)
    | complete =>
      cases hin : s.inflight with
      | none => exact ih _ (by simpa [gwStep, hin] using h)
      | some x =>
        cases hqq : s.queue with
        | nil => exact ih _ (by simp [gwStep, hin, hqq])
        | cons q rest =>
          refine ih _ ?_
          simp only [gwStep, hin, hqq]
          have hlen : s.queue.length = rest.length + 1 := by rw [hqq]; simp
          omega

/-- Helper: a forward call is issued only when nothing is in flight or at the
completion of the previous in-flight call, and the forwarded request becomes
the (only) in-flight one. -/
theorem gwStep_forward_invariants (cap : ℕ) (s : GatewayState) (e : GEvent) (r : ℕ)
    (hmem : GAction.forwarded r ∈ (gwStep cap s e).2) :
    (s.inflight = none ∨ e = GEvent.complete) ∧
    (gwStep cap s e).1.inflight = some r := by
  cases e with
  | arrive x =>
    by_cases hidle : s.inflight = none ∧ s.queue = []
    · refine ⟨Or.inl hidle.1, ?_⟩
      simp only [gwStep, if_pos hidle] at hmem ⊢
      simp at hmem
      rw [hmem]
    · by_cases hq : s.queue.length < cap
      · simp [gwStep, if_neg hidle, if_pos hq] at hmem
      · simp [gwStep, if_neg hidle, if_neg hq] at hmem
  | complete =>
    refine ⟨Or.inr rfl, ?_⟩
    cases hin : s.inflight with
    | none => simp [gwStep, hin] at hmem
    | some y =>
      cases hqq : s.queue with
      | nil => simp [gwStep, hin, hqq] at hmem
      | cons q rest =>
        simp only [gwStep, hin, hqq] at hmem ⊢
        simp at hmem
        rw [hmem]

/-- Helper: an arrival at a busy gateway with a full queue is answered with an
explicit backpressure rejection and changes nothing. -/
theorem gwStep_backpressure (cap : ℕ) (s : GatewayState) (r : ℕ)
    (hbusy : s.inflight ≠ none) (hfull : s.queue.length = cap) :
    gwStep cap s (GEvent.arrive r) = (s, [GAction.rejected r]) := by
  have h1 : ¬ (s.inflight = none ∧ s.queue = []) := fun h => hbusy h.1
  have h2 : ¬ (s.queue.length < cap) := by omega
  simp [gwStep, if_neg h1, if_neg h2]

/-- C5: under any interleaving of concurrent callers (any event sequence,
any number of arrivals), the gateway never issues a second forward call while
one is in flight — a forward is emitted only when the gateway is idle or at
the instant the previous call completes, and the forwarded request becomes
the single in-flight call (`inflight` is an `Option`, so a second simultaneous
in-flight call is unrepresentable); waiting callers reach the engine in
arrival (FIFO) order — the forwarded sequence plus the still-waiting queue is
an order-preserving subsequence of the arrival sequence; the wait queue never
exceeds its bound, and an arrival at a busy gateway with a full queue gets an
explicit backpressure rejection instead of being queued. -/
theorem gateway_single_flight_fifo_backpressure :
    (∀ (cap : ℕ) (s : GatewayState) (e : GEvent) (r : ℕ),
        GAction.forwarded r ∈ (gwStep cap s e).2 →
        (s.inflight = none ∨ e = GEvent.complete) ∧
        (gwStep cap s e).1.inflight = some r) ∧
    (∀ (cap : ℕ) (evs : List GEvent),
        List.Sublist
          (forwardedIds (gwRun cap gwInit evs).2 ++ (gwRun cap gwInit evs).1.queue)
          (arrivals evs)) ∧
    (∀ (cap : ℕ) (evs : List GEvent), (gwRun cap gwInit evs).1.queue.length ≤ cap) ∧
    (∀ (cap : ℕ) (s : GatewayState) (r : ℕ), s.inflight ≠ none →
        s.queue.length = cap →
        gwStep cap s (GEvent.arrive r) = (s, [GAction.rejected r])) := by
  refine ⟨gwStep_forward_invariants, ?_, ?_, gwStep_backpressure⟩
  · intro cap evs
    simpa [gwInit] using gwRun_fifo_general cap evs gwInit
  · intro cap evs
    exact gwRun_queue_bound cap evs gwInit (by simp [gwInit])

/-- Witness for C5: an arrival at the idle gateway is forwarded and becomes
the in-flight call, and an arrival at a busy gateway with a full queue
(bound 0) is rejected with backpressure. -/
theorem gateway_single_flight_fifo_backpressure_witness :
    ((gwInit.inflight = none ∨ GEvent.arrive 5 = GEvent.complete) ∧
      (gwStep 2 gwInit (GEvent.arrive 5)).1.inflight = some 5) ∧
    gwStep 0 { inflight := some 1, queue := [] } (GEvent.arrive 7) =
      ({ inflight := some 1, queue := [] }, [GAction.rejected 7]) :=
  ⟨gateway_single_flight_fifo_backpressure.1 2 gwInit (GEvent.arrive 5) 5 (by decide),
   gateway_single_flight_fifo_backpressure.2.2.2 0
     { inflight := some 1, queue := [] } 7 (by decide) (by decide)⟩

end ZImage
